import Mathlib

/-!
Verification of the credential-lifecycle core of the JuliaHub CLI (`jh`).

The definitions below are a shallow embedding of the source files:
  - the auth service (JWT decoding, token expiry, refresh, `ensureValidToken`),
  - the config store (`writeTokenToConfig` / `readStoredToken`),
  - the Julia credential projector (`createJuliaAuthFile`,
    `updateJuliaCredentialsIfNeeded`, `setupJuliaCredentials`),
  - the git credential helper (`gitCredentialGet`, `isJuliaHubURL`),
  - the OAuth2 device-flow poll loop.

JavaScript strings are modelled as Lean `String`/`List Char`; byte buffers as
`List Nat` (each element < 256); JS `undefined` for optional record fields as
`Option`; JS string truthiness (`if (s)`) as inequality with `""`.  File
system state is a partial map from paths (lists of path components) to file
contents, and effectful functions are embedded as pure functions that return
their result together with an explicit trace of the effects they perform.
-/

namespace JH

/-! ### Base64url (model of `Buffer.from(payload, 'base64url')`)

The source decodes the JWT payload with Node's base64url codec after adding
the missing `=` padding.  The codec is modelled strictly, per the spec's
`MalformedToken` contract ("the middle segment is not valid padded/unpadded
base64url"): any character outside the base64url alphabet, a stray `=`, or a
leftover length makes the decode fail. -/

/-- The base64url alphabet: sextet value to character. -/
def b64Char (n : Nat) : Char :=
  if n < 26 then Char.ofNat (65 + n)
  else if n < 52 then Char.ofNat (97 + (n - 26))
  else if n < 62 then Char.ofNat (48 + (n - 52))
  else if n = 62 then Char.ofNat 45
  else Char.ofNat 95

/-- The base64url alphabet: character to sextet value, `none` off-alphabet. -/
def b64Val (c : Char) : Option Nat :=
  let n := c.toNat
  if 65 ≤ n ∧ n ≤ 90 then some (n - 65)
  else if 97 ≤ n ∧ n ≤ 122 then some (n - 97 + 26)
  else if 48 ≤ n ∧ n ≤ 57 then some (n - 48 + 52)
  else if n = 45 then some 62
  else if n = 95 then some 63
  else none

/-- Unpadded base64url encoding of a byte sequence (the issuer-side encoding
named by the spec's round-trip property; pad characters omitted). -/
def b64uEncodeChars : List Nat → List Char
  | [] => []
  | [b0] => [b64Char (b0 / 4), b64Char (b0 % 4 * 16)]
  | [b0, b1] => [b64Char (b0 / 4), b64Char (b0 % 4 * 16 + b1 / 16), b64Char (b1 % 16 * 4)]
  | b0 :: b1 :: b2 :: rest =>
      b64Char (b0 / 4) :: b64Char (b0 % 4 * 16 + b1 / 16) ::
      b64Char (b1 % 16 * 4 + b2 / 64) :: b64Char (b2 % 64) :: b64uEncodeChars rest

/-- Strict decoding of padded base64url text to bytes. -/
def b64DecodeChars : List Char → Option (List Nat)
  | [] => some []
  | c0 :: c1 :: c2 :: c3 :: rest =>
      match b64Val c0, b64Val c1 with
      | some v0, some v1 =>
          if c2 = '=' then
            if c3 = '=' ∧ rest = [] then some [v0 * 4 + v1 / 16] else none
          else
            match b64Val c2 with
            | some v2 =>
                if c3 = '=' then
                  if rest = [] then some [v0 * 4 + v1 / 16, v1 % 16 * 16 + v2 / 4] else none
                else
                  match b64Val c3 with
                  | some v3 =>
                      (b64DecodeChars rest).map fun bs =>
                        (v0 * 4 + v1 / 16) :: (v1 % 16 * 16 + v2 / 4) ::
                        (v2 % 4 * 64 + v3) :: bs
                  | none => none
            | none => none
      | _, _ => none
  | _ => none

/-- The padding step of `decodeJWT` (auth service lines 31-38): append `==`
when the payload length is 2 mod 4 and `=` when it is 3 mod 4. -/
def padBase64 (p : List Char) : List Char :=
  if p.length % 4 = 2 then p ++ ['=', '=']
  else if p.length % 4 = 3 then p ++ ['=']
  else p

/-- The pad suffix that `padBase64` appends to an unpadded encoding. -/
def padFor : List Nat → List Char
  | [] => []
  | [_] => ['=', '=']
  | [_, _] => ['=']
  | _ :: _ :: _ :: rest => padFor rest

theorem b64Val_b64Char {n : Nat} (h : n < 64) : b64Val (b64Char n) = some n := by
  interval_cases n <;> decide

theorem b64Char_ne_eq {n : Nat} (h : n < 64) : b64Char n ≠ '=' := by
  interval_cases n <;> decide

theorem b64Char_ne_dot {n : Nat} (h : n < 64) : b64Char n ≠ '.' := by
  interval_cases n <;> decide

/-- Every character of an unpadded base64url encoding is in the alphabet,
in particular never a dot. -/
theorem b64uEncodeChars_no_dot (bs : List Nat) (hwf : ∀ b ∈ bs, b < 256) :
    ∀ c ∈ b64uEncodeChars bs, c ≠ '.' := by
  induction bs using b64uEncodeChars.induct with
  | case1 => intro c hc; cases hc
  | case2 b0 =>
      have hb0 : b0 < 256 := hwf b0 (by simp)
      intro c hc
      simp only [b64uEncodeChars, List.mem_cons, List.not_mem_nil, or_false] at hc
      rcases hc with h | h <;>
        exact h ▸ b64Char_ne_dot (by omega)
  | case3 b0 b1 =>
      have hb0 : b0 < 256 := hwf b0 (by simp)
      have hb1 : b1 < 256 := hwf b1 (by simp)
      intro c hc
      simp only [b64uEncodeChars, List.mem_cons, List.not_mem_nil, or_false] at hc
      rcases hc with h | h | h <;>
        exact h ▸ b64Char_ne_dot (by omega)
  | case4 b0 b1 b2 rest ih =>
      have hb0 : b0 < 256 := hwf b0 (by simp)
      have hb1 : b1 < 256 := hwf b1 (by simp)
      have hb2 : b2 < 256 := hwf b2 (by simp)
      have hrest : ∀ b ∈ rest, b < 256 := fun b hb => hwf b (by simp [hb])
      intro c hc
      simp only [b64uEncodeChars, List.mem_cons] at hc
      rcases hc with h | h | h | h | h
      · exact h ▸ b64Char_ne_dot (by omega)
      · exact h ▸ b64Char_ne_dot (by omega)
      · exact h ▸ b64Char_ne_dot (by omega)
      · exact h ▸ b64Char_ne_dot (by omega)
      · exact ih hrest c h

/-- A byte sequence is well formed when every byte is below 256. -/
abbrev bytesWF (bs : List Nat) : Prop := ∀ b ∈ bs, b < 256

/-- The pad suffix appended by `padBase64`, as a function of the length. -/
def padSuffix (n : Nat) : List Char :=
  if n % 4 = 2 then ['=', '='] else if n % 4 = 3 then ['='] else []

theorem padBase64_eq (p : List Char) : padBase64 p = p ++ padSuffix p.length := by
  unfold padBase64 padSuffix
  by_cases h2 : p.length % 4 = 2
  · simp [h2]
  · by_cases h3 : p.length % 4 = 3
    · simp [h2, h3]
    · simp [h2, h3]

theorem padSuffix_b64uEncodeChars (bs : List Nat) :
    padSuffix (b64uEncodeChars bs).length = padFor bs := by
  induction bs using b64uEncodeChars.induct with
  | case1 => rfl
  | case2 b0 => rfl
  | case3 b0 b1 => rfl
  | case4 b0 b1 b2 rest ih =>
      simp only [b64uEncodeChars, List.length_cons, padFor]
      rw [← ih]
      unfold padSuffix
      have h4 : ((b64uEncodeChars rest).length + 1 + 1 + 1 + 1) % 4 =
          (b64uEncodeChars rest).length % 4 := by omega
      rw [h4]

/-- Padding appended by `padBase64` to an unpadded encoding matches `padFor`. -/
theorem padBase64_b64uEncodeChars (bs : List Nat) :
    padBase64 (b64uEncodeChars bs) = b64uEncodeChars bs ++ padFor bs := by
  rw [padBase64_eq, padSuffix_b64uEncodeChars]

/-- Decoding the padded form of an unpadded base64url encoding recovers the
original bytes. -/
theorem b64DecodeChars_encode (bs : List Nat) (h : bytesWF bs) :
    b64DecodeChars (b64uEncodeChars bs ++ padFor bs) = some bs := by
  induction bs using b64uEncodeChars.induct with
  | case1 => rfl
  | case2 b0 =>
      have hb0 : b0 < 256 := h b0 (by simp)
      have v0 := b64Val_b64Char (show b0 / 4 < 64 by omega)
      have v1 := b64Val_b64Char (show b0 % 4 * 16 < 64 by omega)
      have e0 : b0 / 4 * 4 + b0 % 4 * 16 / 16 = b0 := by omega
      simp only [b64uEncodeChars, padFor, List.cons_append, List.nil_append]
      simp [b64DecodeChars, v0, v1, e0]
      omega
  | case3 b0 b1 =>
      have hb0 : b0 < 256 := h b0 (by simp)
      have hb1 : b1 < 256 := h b1 (by simp)
      have v0 := b64Val_b64Char (show b0 / 4 < 64 by omega)
      have v1 := b64Val_b64Char (show b0 % 4 * 16 + b1 / 16 < 64 by omega)
      have v2 := b64Val_b64Char (show b1 % 16 * 4 < 64 by omega)
      have n2 := b64Char_ne_eq (show b1 % 16 * 4 < 64 by omega)
      have e0 : b0 / 4 * 4 + (b0 % 4 * 16 + b1 / 16) / 16 = b0 := by omega
      have e1 : (b0 % 4 * 16 + b1 / 16) % 16 * 16 + b1 % 16 * 4 / 4 = b1 := by omega
      simp only [b64uEncodeChars, padFor, List.cons_append, List.nil_append]
      simp [b64DecodeChars, v0, v1, v2, n2, e0, e1]
      omega
  | case4 b0 b1 b2 rest ih =>
      have hb0 : b0 < 256 := h b0 (by simp)
      have hb1 : b1 < 256 := h b1 (by simp)
      have hb2 : b2 < 256 := h b2 (by simp)
      have hrest : bytesWF rest := fun b hb => h b (by simp [hb])
      have v0 := b64Val_b64Char (show b0 / 4 < 64 by omega)
      have v1 := b64Val_b64Char (show b0 % 4 * 16 + b1 / 16 < 64 by omega)
      have v2 := b64Val_b64Char (show b1 % 16 * 4 + b2 / 64 < 64 by omega)
      have v3 := b64Val_b64Char (show b2 % 64 < 64 by omega)
      have n2 := b64Char_ne_eq (show b1 % 16 * 4 + b2 / 64 < 64 by omega)
      have n3 := b64Char_ne_eq (show b2 % 64 < 64 by omega)
      have e0 : b0 / 4 * 4 + (b0 % 4 * 16 + b1 / 16) / 16 = b0 := by omega
      have e1 : (b0 % 4 * 16 + b1 / 16) % 16 * 16 + (b1 % 16 * 4 + b2 / 64) / 4 = b1 := by omega
      have e2 : (b1 % 16 * 4 + b2 / 64) % 4 * 64 + b2 % 64 = b2 := by omega
      simp only [b64uEncodeChars, padFor, List.cons_append]
      simp [b64DecodeChars, v0, v1, v2, v3, n2, n3, e0, e1, e2, ih hrest]


/-! ### JSON (model of `Buffer.toString('utf8')` + `JSON.parse`)

`JSON.parse` is modelled as a byte-level recursive-descent parser producing a
JSON value.  Restrictions of the model (strictly smaller domain than the
source's parser, which only matters for which inputs count as a decode
failure): string contents are limited to printable ASCII and the simple
escape sequences, numbers to optionally signed integers. -/

inductive Json where
  | null
  | bool (b : Bool)
  | num (n : Int)
  | str (s : String)
  | arr (elems : List Json)
  | obj (kvs : List (String × Json))

def isWsByte (b : Nat) : Bool := b == 32 || b == 9 || b == 10 || b == 13

def isDigitByte (b : Nat) : Bool := 48 ≤ b && b ≤ 57

def skipWs : List Nat → List Nat
  | [] => []
  | b :: rest => if isWsByte b then skipWs rest else b :: rest

/-- Consume a run of decimal digits, accumulating their value. -/
def takeDigits : List Nat → Nat → Nat × List Nat
  | [], acc => (acc, [])
  | b :: rest, acc =>
      if isDigitByte b then takeDigits rest (acc * 10 + (b - 48)) else (acc, b :: rest)

/-- The simple JSON escape sequences. -/
def escChar (e : Nat) : Option Char :=
  if e = 34 then some (Char.ofNat 34)
  else if e = 92 then some (Char.ofNat 92)
  else if e = 47 then some (Char.ofNat 47)
  else if e = 98 then some (Char.ofNat 8)
  else if e = 102 then some (Char.ofNat 12)
  else if e = 110 then some (Char.ofNat 10)
  else if e = 114 then some (Char.ofNat 13)
  else if e = 116 then some (Char.ofNat 9)
  else none

/-- Parse the characters of a JSON string, after the opening quote. -/
def parseStrChars : List Nat → Option (List Char × List Nat)
  | [] => none
  | b :: rest =>
      if b = 34 then some ([], rest)
      else if b = 92 then
        match rest with
        | [] => none
        | e :: rest2 =>
            match escChar e with
            | none => none
            | some c =>
                match parseStrChars rest2 with
                | none => none
                | some (cs, r) => some (c :: cs, r)
      else if 32 ≤ b ∧ b < 128 then
        match parseStrChars rest with
        | none => none
        | some (cs, r) => some (Char.ofNat b :: cs, r)
      else none

mutual

/-- Parse one JSON value.  `fuel` only bounds the recursion; `jsParse` hands
in an amount that a successful parse can never exhaust. -/
def parseValue : Nat → List Nat → Option (Json × List Nat)
  | 0, _ => none
  | fuel + 1, bs =>
      match bs with
      | [] => none
      | b :: rest =>
          if b = 110 then
            match rest with
            | 117 :: 108 :: 108 :: r => some (Json.null, r)
            | _ => none
          else if b = 116 then
            match rest with
            | 114 :: 117 :: 101 :: r => some (Json.bool true, r)
            | _ => none
          else if b = 102 then
            match rest with
            | 97 :: 108 :: 115 :: 101 :: r => some (Json.bool false, r)
            | _ => none
          else if b = 34 then
            match parseStrChars rest with
            | none => none
            | some (cs, r) => some (Json.str (String.mk cs), r)
          else if b = 45 then
            match rest with
            | d :: _ =>
                if isDigitByte d then
                  let p := takeDigits rest 0
                  some (Json.num (-(p.1 : Int)), p.2)
                else none
            | [] => none
          else if isDigitByte b then
            let p := takeDigits (b :: rest) 0
            some (Json.num (p.1 : Int), p.2)
          else if b = 91 then
            match skipWs rest with
            | 93 :: r => some (Json.arr [], r)
            | bs1 => parseItems fuel bs1
          else if b = 123 then
            match skipWs rest with
            | 125 :: r => some (Json.obj [], r)
            | bs1 => parseMembers fuel bs1
          else none

/-- Parse the comma-separated elements of a JSON array, then `]`. -/
def parseItems : Nat → List Nat → Option (Json × List Nat)
  | 0, _ => none
  | fuel + 1, bs =>
      match parseValue fuel bs with
      | none => none
      | some (v, r1) =>
          match skipWs r1 with
          | 44 :: r2 =>
              match parseItems fuel (skipWs r2) with
              | some (Json.arr vs, r) => some (Json.arr (v :: vs), r)
              | _ => none
          | 93 :: r2 => some (Json.arr [v], r2)
          | _ => none

/-- Parse the comma-separated members of a JSON object, then the closing
brace. -/
def parseMembers : Nat → List Nat → Option (Json × List Nat)
  | 0, _ => none
  | fuel + 1, bs =>
      match bs with
      | 34 :: rest =>
          match parseStrChars rest with
          | none => none
          | some (cs, r1) =>
              match skipWs r1 with
              | 58 :: r2 =>
                  match parseValue fuel (skipWs r2) with
                  | none => none
                  | some (v, r3) =>
                      match skipWs r3 with
                      | 44 :: r4 =>
                          match parseMembers fuel (skipWs r4) with
                          | some (Json.obj kvs, r) =>
                              some (Json.obj ((String.mk cs, v) :: kvs), r)
                          | _ => none
                      | 125 :: r4 => some (Json.obj [(String.mk cs, v)], r4)
                      | _ => none
              | _ => none
      | _ => none

end

/-- The byte-level model of `JSON.parse` (composed with UTF-8 decoding):
parse one value surrounded by optional whitespace, requiring the whole
input to be consumed. -/
def jsParse (bs : List Nat) : Option Json :=
  match parseValue (4 * bs.length + 4) (skipWs bs) with
  | some (v, rest) => if skipWs rest = [] then some v else none
  | none => none

/-! ### JWT claims (interface `JWTClaims` of types/auth.ts)

In the source the parsed JSON is cast with `as JWTClaims` and fields are
read off with JS member access: a missing field — or a field holding a value
of another type — reads as `undefined`, modelled by `none`. -/

structure JWTClaims where
  iat : Option Int
  exp : Option Int
  sub : Option String
  iss : Option String
  aud : Option String
  name : Option String
  email : Option String
  preferred_username : Option String
deriving DecidableEq

/-- JS object member access: with duplicate keys, the later binding wins. -/
def jsonLookup (kvs : List (String × Json)) (k : String) : Option Json :=
  match kvs with
  | [] => none
  | (k2, v) :: rest =>
      match jsonLookup rest k with
      | some v2 => some v2
      | none => if k2 = k then some v else none

def getInt (j : Json) (k : String) : Option Int :=
  match j with
  | Json.obj kvs =>
      match jsonLookup kvs k with
      | some (Json.num n) => some n
      | _ => none
  | _ => none

def getStr (j : Json) (k : String) : Option String :=
  match j with
  | Json.obj kvs =>
      match jsonLookup kvs k with
      | some (Json.str s) => some s
      | _ => none
  | _ => none

def claimsOfJson (j : Json) : JWTClaims :=
  ⟨getInt j "iat", getInt j "exp", getStr j "sub", getStr j "iss",
   getStr j "aud", getStr j "name", getStr j "email", getStr j "preferred_username"⟩

/-! ### `AuthService.decodeJWT` -/

/-- Extend the first segment of a split with one more character. -/
def consHead (c : Char) : List (List Char) → List (List Char)
  | [] => [[c]]
  | h :: t => (c :: h) :: t

/-- Model of JS `String.prototype.split` with a single-character separator. -/
def splitChar (sep : Char) : List Char → List (List Char)
  | [] => [[]]
  | c :: rest =>
      if c = sep then [] :: splitChar sep rest
      else consHead c (splitChar sep rest)

/-- Model of `AuthService.decodeJWT` (auth service lines 24-42): split on dots,
require exactly three segments, pad and base64url-decode the middle one,
parse the bytes as JSON and read the claims off the result.  `none` models
every `throw` path. -/
def decodeJWT (tokenString : String) : Option JWTClaims :=
  match splitChar '.' tokenString.toList with
  | [_, payload, _] =>
      match b64DecodeChars (padBase64 payload) with
      | none => none
      | some bytes =>
          match jsParse bytes with
          | none => none
          | some j => some (claimsOfJson j)
  | _ => none

/-- The expiry decision of `isTokenExpired` on successfully decoded claims
(auth service lines 51-63).  `getD 0` models that the JS comparisons
`undefined > 0` and `0 > 0` are both false. -/
def expiredOf (claims : JWTClaims) (expiresIn : Int) (now : Nat) : Bool :=
  if claims.exp.getD 0 > 0 then decide ((now : Int) ≥ claims.exp.getD 0)
  else if claims.iat.getD 0 > 0 ∧ expiresIn > 0 then
    decide ((now : Int) ≥ claims.iat.getD 0 + expiresIn)
  else true

/-- Model of `AuthService.isTokenExpired` (auth service lines 47-68).  `now` stands
for `Math.floor(Date.now() / 1000)`, a non-negative integer; the `catch`
arm returning true on any decode failure is the `none` branch. -/
def isTokenExpired (accessToken : String) (expiresIn : Int) (now : Nat) : Bool :=
  match decodeJWT accessToken with
  | none => true
  | some claims => expiredOf claims expiresIn now

/-! ### splitChar lemmas -/

theorem splitChar_no_sep (sep : Char) (l : List Char) (h : sep ∉ l) :
    splitChar sep l = [l] := by
  induction l with
  | nil => rfl
  | cons c rest ih =>
      have hc : ¬ c = sep := fun e => h (by simp [e])
      have hr : sep ∉ rest := fun e => h (by simp [e])
      rw [splitChar, if_neg hc, ih hr, consHead]

theorem splitChar_append_sep (sep : Char) (a b : List Char) (ha : sep ∉ a) :
    splitChar sep (a ++ sep :: b) = a :: splitChar sep b := by
  induction a with
  | nil => simp [splitChar]
  | cons c rest ih =>
      have hc : ¬ c = sep := fun e => ha (by simp [e])
      have hr : sep ∉ rest := fun e => ha (by simp [e])
      simp only [List.cons_append]
      rw [splitChar, if_neg hc, ih hr, consHead]


theorem isTokenExpired_of_decode {t : String} {c : JWTClaims} (expiresIn : Int) (now : Nat)
    (hc : decodeJWT t = some c) :
    isTokenExpired t expiresIn now = expiredOf c expiresIn now := by
  unfold isTokenExpired
  rw [hc]

theorem decodeJWT_eq_of_split (t : String) (a p s : List Char)
    (hsplit : splitChar '.' t.toList = [a, p, s]) :
    decodeJWT t =
      match b64DecodeChars (padBase64 p) with
      | none => none
      | some bytes =>
          match jsParse bytes with
          | none => none
          | some j => some (claimsOfJson j) := by
  unfold decodeJWT
  rw [hsplit]

/-- **C7**: for every claims object whose JSON encoding — any byte sequence
the JSON model parses to exactly those claims — base64url-encoded with its
pad characters omitted (so the encoded payload length is 0, 2 or 3 mod 4),
forms the middle segment of a three-dot-segment token, `decodeJWT` returns
exactly those claims: the round trip through decode is lossless regardless
of the padding variant. -/
theorem decodeJWT_roundtrip (hdr sig : List Char) (bytes : List Nat) (c : JWTClaims)
    (hh : '.' ∉ hdr) (hs : '.' ∉ sig) (hwf : bytesWF bytes)
    (hparse : (jsParse bytes).map claimsOfJson = some c) :
    decodeJWT (String.mk (hdr ++ '.' :: (b64uEncodeChars bytes ++ '.' :: sig))) = some c := by
  have hdot : '.' ∉ b64uEncodeChars bytes := fun hm =>
    b64uEncodeChars_no_dot bytes hwf '.' hm rfl
  have htl : (String.mk (hdr ++ '.' :: (b64uEncodeChars bytes ++ '.' :: sig))).toList
      = hdr ++ '.' :: (b64uEncodeChars bytes ++ '.' :: sig) := rfl
  have hsplit : splitChar '.'
      (String.mk (hdr ++ '.' :: (b64uEncodeChars bytes ++ '.' :: sig))).toList
      = [hdr, b64uEncodeChars bytes, sig] := by
    rw [htl, splitChar_append_sep '.' hdr _ hh,
        splitChar_append_sep '.' (b64uEncodeChars bytes) sig hdot,
        splitChar_no_sep '.' sig hs]
  obtain ⟨j, hj, hcj⟩ : ∃ j, jsParse bytes = some j ∧ claimsOfJson j = c := by
    cases hjp : jsParse bytes with
    | none => rw [hjp] at hparse; cases hparse
    | some j => rw [hjp] at hparse; exact ⟨j, rfl, by simpa using hparse⟩
  rw [decodeJWT_eq_of_split _ hdr (b64uEncodeChars bytes) sig hsplit]
  rw [padBase64_b64uEncodeChars, b64DecodeChars_encode bytes hwf]
  simp only [hj, hcj]

/-- Witness for C7 at the token `x.eyJleHAiOjF9.y`, whose payload is the
unpadded base64url encoding of the nine ASCII bytes of a JSON object with
a single numeric member `exp` holding 1. -/
theorem decodeJWT_roundtrip_witness :
    decodeJWT (String.mk
        ("x".toList ++ '.' ::
          (b64uEncodeChars [123, 34, 101, 120, 112, 34, 58, 49, 125] ++ '.' :: "y".toList))) =
      some ⟨none, some 1, none, none, none, none, none, none⟩ :=
  decodeJWT_roundtrip "x".toList "y".toList [123, 34, 101, 120, 112, 34, 58, 49, 125]
    ⟨none, some 1, none, none, none, none, none, none⟩
    (by decide) (by decide) (by decide) (by decide)

/-- **C1**: for every access-token string, `expiresIn` and current time:
when the token decodes with `exp > 0`, `isTokenExpired` is true exactly on
`exp ≤ now` and false on `exp > now`; when `exp` is absent or zero it is
true iff `iat ≤ 0` or `expiresIn ≤ 0` or `iat + expiresIn ≤ now`; and it is
true on every string that fails to decode. -/
theorem isTokenExpired_classification (t : String) (expiresIn : Int) (now : Nat) :
    (decodeJWT t = none → isTokenExpired t expiresIn now = true) ∧
    (∀ c, decodeJWT t = some c →
      ((∀ e : Int, c.exp = some e →
          (0 < e → e ≤ (now : Int) → isTokenExpired t expiresIn now = true) ∧
          ((now : Int) < e → isTokenExpired t expiresIn now = false)) ∧
       ((c.exp = none ∨ c.exp = some 0) →
          (isTokenExpired t expiresIn now = true ↔
            (c.iat.getD 0 ≤ 0 ∨ expiresIn ≤ 0 ∨ c.iat.getD 0 + expiresIn ≤ (now : Int)))))) := by
  constructor
  · intro h
    unfold isTokenExpired
    rw [h]
  · intro c hc
    rw [isTokenExpired_of_decode expiresIn now hc]
    constructor
    · intro e he
      unfold expiredOf
      rw [he]
      simp only [Option.getD_some]
      constructor
      · intro hpos hle
        rw [if_pos hpos]
        simp only [ge_iff_le, decide_eq_true_eq]
        exact hle
      · intro hlt
        have hpos : 0 < e := by omega
        rw [if_pos hpos]
        simp only [ge_iff_le, decide_eq_false_iff_not, not_le]
        exact hlt
    · intro hexp
      unfold expiredOf
      have h0 : c.exp.getD 0 = 0 := by rcases hexp with h | h <;> simp [h]
      rw [h0, if_neg (by omega)]
      by_cases hband : c.iat.getD 0 > 0 ∧ expiresIn > 0
      · rw [if_pos hband]
        simp only [ge_iff_le, decide_eq_true_eq]
        constructor
        · intro hle
          right; right; exact hle
        · intro hd
          rcases hd with h1 | h1 | h1
          · omega
          · omega
          · exact h1
      · rw [if_neg hband]
        constructor
        · intro _
          rcases not_and_or.mp hband with h1 | h1
          · left; omega
          · right; left; omega
        · intro _
          rfl

/-- Witness for C1 at the expired token `x.eyJleHAiOjF9.y` (`exp = 1`,
`now = 100`). -/
theorem isTokenExpired_classification_witness :
    isTokenExpired "x.eyJleHAiOjF9.y" 5 100 = true := by
  have h := ((isTokenExpired_classification "x.eyJleHAiOjF9.y" 5 100).2
    ⟨none, some 1, none, none, none, none, none, none⟩ (by decide)).1 1 rfl
  exact h.1 (by decide) (by decide)


/-! ### Decimal rendering and `parseInt`

`renderNat`/`renderInt` model the JS number-to-string conversion used by
template literals for integral values; `jsParseInt` models `parseInt(v, 10)`
with a NaN result collapsed to 0 (the embedding relies on its value only on
all-digit inputs, and NaN and 0 share their JS truthiness). -/

def digitChar (d : Nat) : Char := Char.ofNat (48 + d)

def isDigitChar (c : Char) : Bool := 48 ≤ c.toNat && c.toNat ≤ 57

def renderNat (n : Nat) : List Char :=
  if n < 10 then [digitChar n]
  else renderNat (n / 10) ++ [digitChar (n % 10)]
decreasing_by exact Nat.div_lt_self (by omega) (by omega)

def renderInt (n : Int) : List Char :=
  if n < 0 then '-' :: renderNat n.natAbs else renderNat n.toNat

def takeDigitsChars : List Char → Nat → Nat × List Char
  | [], acc => (acc, [])
  | c :: rest, acc =>
      if isDigitChar c then takeDigitsChars rest (acc * 10 + (c.toNat - 48))
      else (acc, c :: rest)

def isJsWs (c : Char) : Bool := c = ' ' || c = '\t' || c = '\n' || c = '\r'

/-- Model of JS `String.prototype.trim` (on char lists). -/
def jsTrim (l : List Char) : List Char :=
  ((l.dropWhile isJsWs).reverse.dropWhile isJsWs).reverse

def jsParseInt (l : List Char) : Int :=
  match l.dropWhile isJsWs with
  | [] => 0
  | c :: rest =>
      if c = '-' then
        match rest with
        | c2 :: _ => if isDigitChar c2 then -((takeDigitsChars rest 0).1 : Int) else 0
        | [] => 0
      else if c = '+' then
        match rest with
        | c2 :: _ => if isDigitChar c2 then ((takeDigitsChars rest 0).1 : Int) else 0
        | [] => 0
      else if isDigitChar c then ((takeDigitsChars (c :: rest) 0).1 : Int)
      else 0

/-! ### The config store (`ConfigManager`, config.ts)

`~/.juliahub` is modelled by its content: `none` stands for an absent file
(or any other `fs.readFile` failure). -/

/-- The persisted credential record (interface `StoredToken` of
types/auth.ts).  JS `undefined` string fields read back from a partial file
are collapsed to `""` (they share truthiness), and an `undefined` or NaN
`expiresIn` to 0. -/
structure StoredToken where
  accessToken : String
  refreshToken : String
  tokenType : String
  expiresIn : Int
  idToken : String
  server : String
  name : String
  email : String
deriving DecidableEq

/-- The content `ConfigManager.writeTokenToConfig` (config.ts 60-95) writes:
`server=` first, then one `key=value` line per JS-truthy field, in source
order. -/
def writeTokenToConfigContent (server : String) (token : StoredToken) : String :=
  "server=" ++ server ++ "\n"
  ++ (if token.accessToken ≠ "" then "access_token=" ++ token.accessToken ++ "\n" else "")
  ++ (if token.tokenType ≠ "" then "token_type=" ++ token.tokenType ++ "\n" else "")
  ++ (if token.refreshToken ≠ "" then "refresh_token=" ++ token.refreshToken ++ "\n" else "")
  ++ (if token.expiresIn ≠ 0 then "expires_in=" ++ String.mk (renderInt token.expiresIn) ++ "\n" else "")
  ++ (if token.idToken ≠ "" then "id_token=" ++ token.idToken ++ "\n" else "")
  ++ (if token.name ≠ "" then "name=" ++ token.name ++ "\n" else "")
  ++ (if token.email ≠ "" then "email=" ++ token.email ++ "\n" else "")

/-- The token fields accumulated line by line by
`ConfigManager.readStoredToken` (a `Partial<StoredToken>`). -/
structure PartialToken where
  server : Option String
  accessToken : Option String
  refreshToken : Option String
  tokenType : Option String
  idToken : Option String
  expiresIn : Option Int
  name : Option String
  email : Option String
deriving DecidableEq

/-- Model of `trimmed.startsWith(key)` combined with
`trimmed.substring(key.length)`: the remainder when `key` is a prefix. -/
def stripKey : List Char → List Char → Option (List Char)
  | [], l => some l
  | _ :: _, [] => none
  | k :: ks, c :: cs => if c = k then stripKey ks cs else none

/-- One iteration of the line loop of `ConfigManager.readStoredToken`
(config.ts 107-128): trim, skip empty lines, assign the first matching
`key=` prefix. -/
def applyConfigLine (acc : PartialToken) (line : List Char) : PartialToken :=
  let t := jsTrim line
  if t = [] then acc
  else match stripKey "server=".data t with
  | some v => ⟨some (String.mk v), acc.accessToken, acc.refreshToken, acc.tokenType,
               acc.idToken, acc.expiresIn, acc.name, acc.email⟩
  | none => match stripKey "access_token=".data t with
  | some v => ⟨acc.server, some (String.mk v), acc.refreshToken, acc.tokenType,
               acc.idToken, acc.expiresIn, acc.name, acc.email⟩
  | none => match stripKey "refresh_token=".data t with
  | some v => ⟨acc.server, acc.accessToken, some (String.mk v), acc.tokenType,
               acc.idToken, acc.expiresIn, acc.name, acc.email⟩
  | none => match stripKey "token_type=".data t with
  | some v => ⟨acc.server, acc.accessToken, acc.refreshToken, some (String.mk v),
               acc.idToken, acc.expiresIn, acc.name, acc.email⟩
  | none => match stripKey "id_token=".data t with
  | some v => ⟨acc.server, acc.accessToken, acc.refreshToken, acc.tokenType,
               some (String.mk v), acc.expiresIn, acc.name, acc.email⟩
  | none => match stripKey "expires_in=".data t with
  | some v => ⟨acc.server, acc.accessToken, acc.refreshToken, acc.tokenType,
               acc.idToken, some (jsParseInt v), acc.name, acc.email⟩
  | none => match stripKey "name=".data t with
  | some v => ⟨acc.server, acc.accessToken, acc.refreshToken, acc.tokenType,
               acc.idToken, acc.expiresIn, some (String.mk v), acc.email⟩
  | none => match stripKey "email=".data t with
  | some v => ⟨acc.server, acc.accessToken, acc.refreshToken, acc.tokenType,
               acc.idToken, acc.expiresIn, acc.name, some (String.mk v)⟩
  | none => acc

def emptyPartialToken : PartialToken := ⟨none, none, none, none, none, none, none, none⟩

/-- The line loop plus the final access-token check of
`ConfigManager.readStoredToken` (config.ts 100-135), over the split lines.
A missing or empty access token is the thrown
`No access token found in config`, modelled by `none`. -/
def readStoredTokenFromLines (lines : List (List Char)) : Option StoredToken :=
  let p := lines.foldl applyConfigLine emptyPartialToken
  if p.accessToken.getD "" = "" then none
  else some ⟨p.accessToken.getD "", p.refreshToken.getD "", p.tokenType.getD "",
             p.expiresIn.getD 0, p.idToken.getD "", p.server.getD "",
             p.name.getD "", p.email.getD ""⟩

/-- Model of `ConfigManager.readStoredToken`: `none` covers both an unreadable
backing file and a file without an access-token line. -/
def readStoredToken (fileContent : Option String) : Option StoredToken :=
  match fileContent with
  | none => none
  | some content => readStoredTokenFromLines (splitChar '\n' content.data)

/-- Model of `ConfigManager.normalizeServer` (config.ts 140-145). -/
def normalizeServer (server : String) : String :=
  if ".com".data.isSuffixOf server.data || ".dev".data.isSuffixOf server.data then server
  else server ++ ".juliahub.com"


/-! ### Token lifecycle (`AuthService.refreshToken` / `ensureValidToken`)

The single possible refresh HTTP exchange is a parameter (`HttpResult`):
`ok` is `resp.ok`, `body` the parsed JSON body, `text` the error text read
on non-2xx.  Network and store effects are returned as explicit traces. -/

instance {A B : Type} [DecidableEq A] [DecidableEq B] : DecidableEq (Except A B)
  | Except.error a, Except.error b =>
      if h : a = b then Decidable.isTrue (by rw [h]) else Decidable.isFalse (by simp [h])
  | Except.error _, Except.ok _ => Decidable.isFalse (by simp)
  | Except.ok _, Except.error _ => Decidable.isFalse (by simp)
  | Except.ok a, Except.ok b =>
      if h : a = b then Decidable.isTrue (by rw [h]) else Decidable.isFalse (by simp [h])

/-- The token endpoint response body (interface `TokenResponse` of
types/auth.ts).  `error = ""` models an absent `error` member, matching JS
truthiness at every use site; the other strings likewise. -/
structure TokenResponse where
  access_token : String
  token_type : String
  refresh_token : String
  expires_in : Int
  id_token : String
  error : String
deriving DecidableEq

structure HttpResult where
  ok : Bool
  body : TokenResponse
  text : String
deriving DecidableEq

/-- Model of `AuthService.refreshToken` (auth service lines 160-200): the response
checks after the single POST; `Except.error` models each `throw`. -/
def refreshToken (resp : HttpResult) : Except String TokenResponse :=
  if resp.ok = false then Except.error ("Failed to refresh token: " ++ resp.text)
  else if resp.body.error ≠ "" then
    Except.error ("Failed to refresh token: " ++ resp.body.error)
  else if resp.body.access_token = "" then
    Except.error "No access token in refresh response"
  else Except.ok resp.body

/-- The failure modes of `ensureValidToken`, named after the spec's error
taxonomy: `notAuthenticated` is the propagated `readStoredToken` failure,
`refreshUnavailable` the thrown
`Access token expired and no refresh token available`, `refreshFailed` a
propagated `refreshToken` failure. -/
inductive EnsureError where
  | notAuthenticated
  | refreshUnavailable
  | refreshFailed (msg : String)
deriving DecidableEq

/-- Result of `ensureValidToken` together with its effect traces:
`refreshRequests` counts token-endpoint POSTs, `configWrites` the
`writeTokenToConfig` calls, `projectorSyncs` the
`updateJuliaCredentialsIfNeeded` calls — the source has that call commented
out (auth service lines 258-259), so the trace is always empty. -/
structure EnsureResult where
  result : Except EnsureError StoredToken
  refreshRequests : Nat
  configWrites : List (String × StoredToken)
  projectorSyncs : List String
deriving DecidableEq

/-- Build the updated StoredToken after a successful refresh (auth service
lines 229-253): replace the token fields, keep `server`, and overwrite
`name`/`email` only when the new ID token decodes and carries a JS-truthy
claim. -/
def buildRefreshedToken (storedToken : StoredToken) (tr : TokenResponse) : StoredToken :=
  let nameEmail : String × String :=
    if tr.id_token ≠ "" then
      match decodeJWT tr.id_token with
      | some claims =>
          (if claims.name.getD "" ≠ "" then claims.name.getD "" else storedToken.name,
           if claims.email.getD "" ≠ "" then claims.email.getD "" else storedToken.email)
      | none => (storedToken.name, storedToken.email)
    else (storedToken.name, storedToken.email)
  ⟨tr.access_token, tr.refresh_token, tr.token_type, tr.expires_in, tr.id_token,
   storedToken.server, nameEmail.1, nameEmail.2⟩

/-- Model of `AuthService.ensureValidToken` (auth service lines 205-262). -/
def ensureValidToken (fileContent : Option String) (now : Nat) (resp : HttpResult) :
    EnsureResult :=
  match readStoredToken fileContent with
  | none => ⟨Except.error EnsureError.notAuthenticated, 0, [], []⟩
  | some storedToken =>
      if isTokenExpired storedToken.accessToken storedToken.expiresIn now = false then
        ⟨Except.ok storedToken, 0, [], []⟩
      else if storedToken.refreshToken = "" then
        ⟨Except.error EnsureError.refreshUnavailable, 0, [], []⟩
      else
        match refreshToken resp with
        | Except.error msg => ⟨Except.error (EnsureError.refreshFailed msg), 1, [], []⟩
        | Except.ok tr =>
            let updatedToken := buildRefreshedToken storedToken tr
            ⟨Except.ok updatedToken, 1, [(storedToken.server, updatedToken)], []⟩

theorem refreshToken_ok {resp : HttpResult} {tr : TokenResponse}
    (h : refreshToken resp = Except.ok tr) : tr = resp.body := by
  unfold refreshToken at h
  split at h
  · cases h
  · split at h
    · cases h
    · split at h
      · cases h
      · cases h
        rfl

/-- **C3**: when the stored token is expired and carries a refresh token,
`ensureValidToken` issues exactly one refresh HTTP request, and any
StoredToken it returns keeps the stored `server`; `name`/`email` are
overwritten only when the refreshed response's ID token decodes and carries
those claims, and otherwise keep their prior values (never blanked). -/
theorem ensureValidToken_refresh_frame (fileContent : Option String) (now : Nat)
    (resp : HttpResult) (st : StoredToken)
    (hread : readStoredToken fileContent = some st)
    (hexp : isTokenExpired st.accessToken st.expiresIn now = true)
    (href : st.refreshToken ≠ "") :
    (ensureValidToken fileContent now resp).refreshRequests = 1 ∧
    (∀ u, (ensureValidToken fileContent now resp).result = Except.ok u →
      u.server = st.server ∧
      (resp.body.id_token = "" → u.name = st.name ∧ u.email = st.email) ∧
      (decodeJWT resp.body.id_token = none → u.name = st.name ∧ u.email = st.email) ∧
      (∀ cl, decodeJWT resp.body.id_token = some cl → resp.body.id_token ≠ "" →
        u.name = (if cl.name.getD "" ≠ "" then cl.name.getD "" else st.name) ∧
        u.email = (if cl.email.getD "" ≠ "" then cl.email.getD "" else st.email))) := by
  unfold ensureValidToken
  rw [hread]
  simp only [hexp, Bool.true_eq_false, if_neg, if_false]
  rw [if_neg href]
  cases hr : refreshToken resp with
  | error msg => exact ⟨rfl, fun u hu => by cases hu⟩
  | ok tr =>
      have htr : tr = resp.body := refreshToken_ok hr
      refine ⟨rfl, fun u hu => ?_⟩
      have hu2 : u = buildRefreshedToken st tr := by
        cases hu
        rfl
      subst hu2
      subst htr
      unfold buildRefreshedToken
      refine ⟨rfl, ?_, ?_, ?_⟩
      · intro hid
        rw [if_neg (by simp [hid])]
        exact ⟨rfl, rfl⟩
      · intro hdec
        by_cases hid : resp.body.id_token = ""
        · rw [if_neg (by simp [hid])]
          exact ⟨rfl, rfl⟩
        · rw [if_pos hid, hdec]
          exact ⟨rfl, rfl⟩
      · intro cl hdec hid
        rw [if_pos hid, hdec]
        exact ⟨rfl, rfl⟩

/-- Witness for C3: a stored record with the expired access token
`x.eyJleHAiOjF9.y` (`exp = 1`) and refresh token `r`, refreshed at
`now = 100` by an OK response whose ID token is empty. -/
theorem ensureValidToken_refresh_frame_witness :
    (ensureValidToken (some "server=s\naccess_token=x.eyJleHAiOjF9.y\nrefresh_token=r\n")
        100 ⟨true, ⟨"newacc", "bearer", "newref", 3600, "", ""⟩, ""⟩).refreshRequests = 1 :=
  (ensureValidToken_refresh_frame _ 100 _
    ⟨"x.eyJleHAiOjF9.y", "r", "", 0, "", "s", "", ""⟩
    (by decide) (by decide) (by decide)).1


/-- **C4**: `ensureValidToken` fails with the spec's `NotAuthenticated` when
no token is stored (backing file absent or without an access-token line) and
with `RefreshUnavailable` when the stored token is expired with no refresh
token — in both cases with zero network requests (the whole `EnsureResult`
is the error with empty traces). -/
theorem ensureValidToken_failure_modes (fileContent : Option String) (now : Nat)
    (resp : HttpResult) :
    (readStoredToken fileContent = none →
      ensureValidToken fileContent now resp =
        ⟨Except.error EnsureError.notAuthenticated, 0, [], []⟩) ∧
    (∀ st, readStoredToken fileContent = some st →
      isTokenExpired st.accessToken st.expiresIn now = true →
      st.refreshToken = "" →
      ensureValidToken fileContent now resp =
        ⟨Except.error EnsureError.refreshUnavailable, 0, [], []⟩) := by
  constructor
  · intro h
    unfold ensureValidToken
    rw [h]
  · intro st hread hexp href
    unfold ensureValidToken
    rw [hread]
    simp only [hexp, Bool.true_eq_false, if_false]
    rw [if_pos href]

/-- Witness for C4: an absent backing file, and a stored record whose access
token `x.eyJleHAiOjF9.y` is expired at `now = 100` with no refresh-token
line. -/
theorem ensureValidToken_failure_modes_witness :
    ensureValidToken none 0 ⟨true, ⟨"", "", "", 0, "", ""⟩, ""⟩ =
      ⟨Except.error EnsureError.notAuthenticated, 0, [], []⟩ ∧
    ensureValidToken (some "server=s\naccess_token=x.eyJleHAiOjF9.y\n") 100
        ⟨true, ⟨"", "", "", 0, "", ""⟩, ""⟩ =
      ⟨Except.error EnsureError.refreshUnavailable, 0, [], []⟩ :=
  ⟨(ensureValidToken_failure_modes none 0 ⟨true, ⟨"", "", "", 0, "", ""⟩, ""⟩).1 rfl,
   (ensureValidToken_failure_modes (some "server=s\naccess_token=x.eyJleHAiOjF9.y\n") 100
      ⟨true, ⟨"", "", "", 0, "", ""⟩, ""⟩).2
     ⟨"x.eyJleHAiOjF9.y", "", "", 0, "", "s", "", ""⟩
     (by decide) (by decide) (by decide)⟩

/-- **C5** (code bug): after a successful refresh, `ensureValidToken`
persists the new token to the config store but triggers no
CredentialProjector re-sync — the `updateJuliaCredentialsIfNeeded` call is
commented out in the source (auth service lines 258-259, "we'll implement
this later"), so `projectorSyncs` is empty where the claim requires the
token's server. -/
theorem ensureValidToken_no_projector_sync :
    (ensureValidToken (some "server=s\naccess_token=x.eyJleHAiOjF9.y\nrefresh_token=r\n")
        100 ⟨true, ⟨"newacc", "bearer", "newref", 3600, "", ""⟩, ""⟩) =
      ⟨Except.ok ⟨"newacc", "newref", "bearer", 3600, "", "s", "", ""⟩, 1,
       [("s", ⟨"newacc", "newref", "bearer", 3600, "", "s", "", ""⟩)], []⟩ := by
  decide


/-! ### Filesystem model and the CredentialProjector

Paths are lists of components (`path.join` appends a component); the
filesystem is the partial map from paths to file contents.  Each projector
function is embedded as the sequence of filesystem operations it performs
on its success path; a crash or failure at any point corresponds to
applying a prefix of that sequence. -/

inductive FSOp where
  | mkdirp (dir : List String)
  | write (path : List String) (content : String)
  | rename (src dst : List String)
  | remove (path : List String)
deriving DecidableEq

def FS : Type := List String → Option String

def applyOp (fs : FS) : FSOp → FS
  | FSOp.mkdirp _ => fs
  | FSOp.write p c => fun q => if q = p then some c else fs q
  | FSOp.rename src dst =>
      fun q => if q = dst then fs src else if q = src then none else fs q
  | FSOp.remove p => fun q => if q = p then none else fs q

def applyOps (fs : FS) (ops : List FSOp) : FS := ops.foldl applyOp fs

/-- The directory `~/.julia/servers/` followed by the server name (julia.ts 140). -/
def juliaServerDir (home server : String) : List String :=
  [home, ".julia", "servers", server]

/-- The file auth.toml inside the per-server directory (julia.ts 169). -/
def juliaAuthPath (home server : String) : List String :=
  juliaServerDir home server ++ ["auth.toml"]

/-- The auth host used in the refresh URL (auth service 74-79, julia.ts
147-152): one well-known identity maps to its auth subdomain, everything
else is used verbatim. -/
def authServerFor (server : String) : String :=
  if server = "juliahub.com" then "auth.juliahub.com" else server

def jsShowOptInt : Option Int → String
  | none => "undefined"
  | some n => String.mk (renderInt n)

def jsShowOptStr : Option String → String
  | none => "undefined"
  | some s => s

/-- The auth.toml content rendered by the TS `createJuliaAuthFile`
(julia.ts 156-166); `undefined` claims print as in a JS template literal. -/
def renderAuthToml (server : String) (token : StoredToken) (claims : JWTClaims) : String :=
  "expires_at = " ++ jsShowOptInt claims.exp ++ "\n" ++
  "id_token = \"" ++ token.idToken ++ "\"\n" ++
  "access_token = \"" ++ token.accessToken ++ "\"\n" ++
  "refresh_token = \"" ++ token.refreshToken ++ "\"\n" ++
  "refresh_url = \"https://" ++ authServerFor server ++ "/dex/token\"\n" ++
  "expires_in = " ++ String.mk (renderInt token.expiresIn) ++ "\n" ++
  "user_email = \"" ++ token.email ++ "\"\n" ++
  "expires = " ++ jsShowOptInt claims.exp ++ "\n" ++
  "user_name = \"" ++ jsShowOptStr claims.preferred_username ++ "\"\n" ++
  "name = \"" ++ token.name ++ "\"\n"

/-- The Go `createJuliaAuthFile` renders the same template through
`fmt.Sprintf` (part_000 lines 47-68); Go's zero values stand in for absent
claims (`ExpiresAt` 0, `PreferredUsername` empty). -/
def renderAuthTomlGo (server : String) (token : StoredToken) (claims : JWTClaims) : String :=
  "expires_at = " ++ String.mk (renderInt (claims.exp.getD 0)) ++ "\n" ++
  "id_token = \"" ++ token.idToken ++ "\"\n" ++
  "access_token = \"" ++ token.accessToken ++ "\"\n" ++
  "refresh_token = \"" ++ token.refreshToken ++ "\"\n" ++
  "refresh_url = \"https://" ++ authServerFor server ++ "/dex/token\"\n" ++
  "expires_in = " ++ String.mk (renderInt token.expiresIn) ++ "\n" ++
  "user_email = \"" ++ token.email ++ "\"\n" ++
  "expires = " ++ String.mk (renderInt (claims.exp.getD 0)) ++ "\n" ++
  "user_name = \"" ++ claims.preferred_username.getD "" ++ "\"\n" ++
  "name = \"" ++ token.name ++ "\"\n"

/-- The unique temp-file name `.auth.toml.tmp.` plus the millisecond clock (julia.ts 170). -/
def tmpAuthName (nowMs : Nat) : String := ".auth.toml.tmp." ++ String.mk (renderNat nowMs)

/-- The TS `JuliaService.createJuliaAuthFile` (julia.ts 136-189) as its
success-path operation sequence, given the `ensureValidToken` result
`token`: mkdir the server directory, write the rendered content to the
uniquely named temp file in that directory, rename it over auth.toml.  When
`decodeJWT` throws on the ID token the function aborts right after the
mkdir; the catch block's temp-file cleanup only runs when the write or the
rename itself failed. -/
def createJuliaAuthFileOps (home server : String) (token : StoredToken) (nowMs : Nat) :
    List FSOp :=
  FSOp.mkdirp (juliaServerDir home server) ::
    (match decodeJWT token.idToken with
     | none => []
     | some claims =>
         [FSOp.write (juliaServerDir home server ++ [tmpAuthName nowMs])
            (renderAuthToml server token claims),
          FSOp.rename (juliaServerDir home server ++ [tmpAuthName nowMs])
            (juliaAuthPath home server)])

/-- The Go `createJuliaAuthFile` (part_000 lines 10-76): mkdir, decode the
ID token, then `os.Create` — which truncates the target in place — followed
by writing the content directly to the target.  The Go `decodeJWT` lives in
auth.go, which is not under src/; per spec section 4.1 it is the same
decoder, so the embedded `decodeJWT` is reused for the decode gate. -/
def goCreateJuliaAuthFileOps (home server : String) (token : StoredToken) : List FSOp :=
  FSOp.mkdirp (juliaServerDir home server) ::
    (match decodeJWT token.idToken with
     | none => []
     | some claims =>
         [FSOp.write (juliaAuthPath home server) "",
          FSOp.write (juliaAuthPath home server) (renderAuthTomlGo server token claims)])

/-- Model of `JuliaService.updateJuliaCredentialsIfNeeded` (julia.ts 209-231): the
refresh-path projector updates auth.toml only when it already exists, doing
nothing otherwise (and swallowing every error). -/
def updateJuliaCredentialsIfNeededOps (home server : String) (token : StoredToken)
    (nowMs : Nat) (fs : FS) : List FSOp :=
  if fs (juliaAuthPath home server) = none then []
  else createJuliaAuthFileOps home server token nowMs

/-- Model of `JuliaService.setupJuliaCredentials` (julia.ts 194-203): the explicit
setup path calls `createJuliaAuthFile` unconditionally (no existence
check); `server` is the config-file server and `token` the
`ensureValidToken` result. -/
def setupJuliaCredentialsOps (home server : String) (token : StoredToken) (nowMs : Nat) :
    List FSOp :=
  createJuliaAuthFileOps home server token nowMs

theorem tmpAuthName_ne (nowMs : Nat) : tmpAuthName nowMs ≠ "auth.toml" := by
  intro h
  have hlen := congrArg String.length h
  rw [tmpAuthName, String.length_append] at hlen
  have h15 : (".auth.toml.tmp." : String).length = 15 := rfl
  have h9 : ("auth.toml" : String).length = 9 := rfl
  omega

/-- **C2** (amended to the TypeScript implementation): every proper prefix
of the TS `createJuliaAuthFile` operation sequence — every stop before the
final rename — leaves the content of the target auth.toml exactly as it
was before the call; the rendered content goes to a uniquely named temp
file in the same directory.  (The Go implementation violates the original
claim: see the counterexample.) -/
theorem createJuliaAuthFile_prefix_preserves_target (home server : String)
    (token : StoredToken) (nowMs : Nat) (fs : FS) (k : Nat)
    (hk : k < (createJuliaAuthFileOps home server token nowMs).length) :
    applyOps fs ((createJuliaAuthFileOps home server token nowMs).take k)
        (juliaAuthPath home server) =
      fs (juliaAuthPath home server) := by
  have hne : juliaServerDir home server ++ [tmpAuthName nowMs] ≠ juliaAuthPath home server := by
    intro h
    have := List.append_cancel_left h
    have h2 : tmpAuthName nowMs = "auth.toml" := by
      simpa using this
    exact tmpAuthName_ne nowMs h2
  unfold createJuliaAuthFileOps at hk ⊢
  cases hdec : decodeJWT token.idToken with
  | none =>
      rw [hdec] at hk
      have hk1 : k < 1 := hk
      interval_cases k
      · rfl
  | some claims =>
      rw [hdec] at hk
      have hk3 : k < 3 := hk
      interval_cases k
      · rfl
      · rfl
      · show applyOps fs [FSOp.mkdirp _, FSOp.write _ _] _ = _
        unfold applyOps applyOp
        simp only [List.foldl]
        rw [if_neg (Ne.symm hne)]

/-- Witness for C2 (amended): a concrete filesystem holding `old` at the
target; stopping after the temp-file write (prefix of length 2) leaves the
target's content `old`. -/
theorem createJuliaAuthFile_prefix_preserves_target_witness :
    applyOps
        (fun p => if p = juliaAuthPath "home" "s" then some "old" else none)
        ((createJuliaAuthFileOps "home" "s"
            ⟨"a", "r", "bearer", 3600, "x.eyJleHAiOjF9.y", "s", "n", "e"⟩ 7).take 2)
        (juliaAuthPath "home" "s") =
      (fun p : List String => if p = juliaAuthPath "home" "s" then some "old" else none)
        (juliaAuthPath "home" "s") :=
  createJuliaAuthFile_prefix_preserves_target "home" "s"
    ⟨"a", "r", "bearer", 3600, "x.eyJleHAiOjF9.y", "s", "n", "e"⟩ 7 _ 2 (by decide)

/-- Counterexample to C2 as stated: the Go `createJuliaAuthFile` truncates
the target in place (`os.Create`) before writing, so stopping the operation
before completion (here after the truncating create, prefix of length 2)
leaves the target empty instead of byte-identical to its prior content
`old`. -/
theorem goCreateJuliaAuthFile_truncates_target :
    applyOps
        (fun p => if p = juliaAuthPath "home" "s" then some "old" else none)
        ((goCreateJuliaAuthFileOps "home" "s"
            ⟨"a", "r", "bearer", 3600, "x.eyJleHAiOjF9.y", "s", "n", "e"⟩).take 2)
        (juliaAuthPath "home" "s") = some "" ∧
    (fun p : List String => if p = juliaAuthPath "home" "s" then some "old" else none)
        (juliaAuthPath "home" "s") = some "old" := by
  constructor
  · rfl
  · rfl

/-- **C6**: on the refresh path the projector writes the external
credential file only when it already exists and leaves the filesystem
unchanged when it does not; on the explicit setup path it creates the
directory and creates/overwrites the file unconditionally (for every prior
filesystem state the final content is the rendered auth.toml). -/
theorem juliaProjector_update_vs_setup (home server : String) (token : StoredToken)
    (nowMs : Nat) (fs : FS) (claims : JWTClaims)
    (hdec : decodeJWT token.idToken = some claims) :
    (fs (juliaAuthPath home server) = none →
      updateJuliaCredentialsIfNeededOps home server token nowMs fs = [] ∧
      ∀ p, applyOps fs (updateJuliaCredentialsIfNeededOps home server token nowMs fs) p = fs p) ∧
    (fs (juliaAuthPath home server) ≠ none →
      updateJuliaCredentialsIfNeededOps home server token nowMs fs =
        createJuliaAuthFileOps home server token nowMs) ∧
    (applyOps fs (setupJuliaCredentialsOps home server token nowMs)
        (juliaAuthPath home server) = some (renderAuthToml server token claims)) ∧
    FSOp.mkdirp (juliaServerDir home server) ∈ setupJuliaCredentialsOps home server token nowMs := by
  refine ⟨?_, ?_, ?_, ?_⟩
  · intro habs
    unfold updateJuliaCredentialsIfNeededOps
    rw [if_pos habs]
    exact ⟨rfl, fun p => rfl⟩
  · intro hex
    unfold updateJuliaCredentialsIfNeededOps
    rw [if_neg hex]
  · unfold setupJuliaCredentialsOps createJuliaAuthFileOps
    rw [hdec]
    unfold applyOps applyOp
    simp only [List.foldl]
    simp
  · unfold setupJuliaCredentialsOps createJuliaAuthFileOps
    rw [hdec]
    exact List.mem_cons_self _ _

/-- Witness for C6 at an empty filesystem: the refresh-path projector
leaves it untouched, while the setup path materialises the rendered
auth.toml. -/
theorem juliaProjector_update_vs_setup_witness :
    updateJuliaCredentialsIfNeededOps "h" "s"
        ⟨"a", "r", "bearer", 3600, "x.eyJleHAiOjF9.y", "s", "n", "e"⟩ 7
        (fun _ => none) = [] ∧
    applyOps (fun _ => none)
        (setupJuliaCredentialsOps "h" "s"
          ⟨"a", "r", "bearer", 3600, "x.eyJleHAiOjF9.y", "s", "n", "e"⟩ 7)
        (juliaAuthPath "h" "s") =
      some (renderAuthToml "s" ⟨"a", "r", "bearer", 3600, "x.eyJleHAiOjF9.y", "s", "n", "e"⟩
        ⟨none, some 1, none, none, none, none, none, none⟩) :=
  ⟨((juliaProjector_update_vs_setup "h" "s"
      ⟨"a", "r", "bearer", 3600, "x.eyJleHAiOjF9.y", "s", "n", "e"⟩ 7 (fun _ => none)
      ⟨none, some 1, none, none, none, none, none, none⟩ (by decide)).1 rfl).1,
   (juliaProjector_update_vs_setup "h" "s"
      ⟨"a", "r", "bearer", 3600, "x.eyJleHAiOjF9.y", "s", "n", "e"⟩ 7 (fun _ => none)
      ⟨none, some 1, none, none, none, none, none, none⟩ (by decide)).2.2.1⟩


/-! ### Device-flow poll loop (`AuthService.deviceFlow`) -/

inductive PollOutcome where
  | success (resp : TokenResponse) (warned : Bool)
  | failure (err : String)
  | exhausted
deriving DecidableEq

/-- The `POLLING` loop of `AuthService.deviceFlow` (auth service lines
116-155), over the successive poll response bodies; `exhausted` means the
loop is still polling after consuming the given responses.  On success
`warned` records whether the missing-refresh-token warning was printed
(lines 144-151). -/
def pollLoop : List TokenResponse → PollOutcome
  | [] => PollOutcome.exhausted
  | r :: rest =>
      if r.error ≠ "" then
        if r.error = "authorization_pending" then pollLoop rest
        else PollOutcome.failure ("Authorization failed: " ++ r.error)
      else if r.access_token ≠ "" then
        PollOutcome.success r (r.refresh_token == "")
      else pollLoop rest

/-- Model of `AuthService.tokenResponseToStored` (auth service lines 316-347). -/
def tokenResponseToStored (server : String) (token : TokenResponse) : StoredToken :=
  let nameEmail : String × String :=
    if token.id_token ≠ "" then
      match decodeJWT token.id_token with
      | some claims =>
          (if claims.name.getD "" ≠ "" then claims.name.getD "" else "",
           if claims.email.getD "" ≠ "" then claims.email.getD "" else "")
      | none => ("", "")
    else ("", "")
  ⟨token.access_token, token.refresh_token, token.token_type, token.expires_in,
   token.id_token, server, nameEmail.1, nameEmail.2⟩

/-- **C8**: in the poll loop, every body with
`error == "authorization_pending"` causes another sleep-and-poll iteration
without raising; any other non-empty error fails the flow with
`AuthorizationFailed(error)`; a body carrying `access_token` terminates the
loop successfully, and when its `refresh_token` is empty the warning flag is
set and the StoredToken built from it has an empty `refreshToken`. -/
theorem deviceFlow_poll_classification (server : String) :
    (∀ pendings rs, (∀ p ∈ pendings, p.error = "authorization_pending") →
        pollLoop (pendings ++ rs) = pollLoop rs) ∧
    (∀ r rest, r.error ≠ "" → r.error ≠ "authorization_pending" →
        pollLoop (r :: rest) =
          PollOutcome.failure ("Authorization failed: " ++ r.error)) ∧
    (∀ r rest, r.error = "" → r.access_token ≠ "" →
        pollLoop (r :: rest) = PollOutcome.success r (r.refresh_token == "") ∧
        (r.refresh_token = "" →
          (r.refresh_token == "") = true ∧
          (tokenResponseToStored server r).refreshToken = "")) := by
  refine ⟨?_, ?_, ?_⟩
  · intro pendings rs hp
    induction pendings with
    | nil => rfl
    | cons p ps ih =>
        have hp0 : p.error = "authorization_pending" := hp p (by simp)
        have hps : ∀ q ∈ ps, q.error = "authorization_pending" :=
          fun q hq => hp q (by simp [hq])
        rw [List.cons_append, pollLoop, if_pos (by simp [hp0]), if_pos hp0]
        exact ih hps
  · intro r rest herr hpend
    rw [pollLoop, if_pos herr, if_neg hpend]
  · intro r rest herr hat
    constructor
    · rw [pollLoop, if_neg (by simp [herr]), if_pos hat]
    · intro hrt
      exact ⟨by simp [hrt], by simp [tokenResponseToStored, hrt]⟩

/-- Witness for C8: one `authorization_pending` body followed by a body
carrying an access token and an empty refresh token. -/
theorem deviceFlow_poll_classification_witness :
    pollLoop [⟨"", "", "", 0, "", "authorization_pending"⟩,
              ⟨"at", "bearer", "", 3600, "", ""⟩] =
      PollOutcome.success ⟨"at", "bearer", "", 3600, "", ""⟩ true ∧
    (tokenResponseToStored "s" ⟨"at", "bearer", "", 3600, "", ""⟩).refreshToken = "" := by
  have h := deviceFlow_poll_classification "s"
  have h1 := h.1 [⟨"", "", "", 0, "", "authorization_pending"⟩]
    [⟨"at", "bearer", "", 3600, "", ""⟩] (by decide)
  have h3 := h.2.2 ⟨"at", "bearer", "", 3600, "", ""⟩ [] rfl (by decide)
  exact ⟨h1.trans h3.1, (h3.2 rfl).2⟩

/-! ### Credential helper (`GitService`, git.ts) -/

/-- Substring test (JS `String.prototype.includes`, on char lists). -/
def containsSeq (needle : List Char) : List Char → Bool
  | [] => needle.isEmpty
  | c :: rest => needle.isPrefixOf (c :: rest) || containsSeq needle rest

/-- Model of `GitService.isJuliaHubURL` (git.ts 343-367): empty host no; suffix
match on the primary domain yes; substring match on the brand token yes;
the final configured-server branch never completes its async read and
falls through to false (dead code, spec section 9 treats it as removed). -/
def isJuliaHubURL (host : String) : Bool :=
  if host = "" then false
  else if "juliahub.com".data.isSuffixOf host.data then true
  else if containsSeq "juliahub".data host.data then true
  else false

/-- Model of `GitService.readCredentialInput` (git.ts 312-338): consume `key=value`
lines up to the first blank line; a line is assigned when
`line.split('=', 2)` yields two parts (so text after a second `=` is
dropped, as with the JS limit argument). -/
def credPairs : List String → List (String × String)
  | [] => []
  | line :: rest =>
      let t := jsTrim line.data
      if t = [] then []
      else
        match splitChar '=' t with
        | k :: v :: _ => (String.mk k, String.mk v) :: credPairs rest
        | _ => credPairs rest

/-- JS record assignment `input[key] = value`: the later binding wins. -/
def credLookup (pairs : List (String × String)) (k : String) : Option String :=
  match pairs with
  | [] => none
  | (k2, v) :: rest =>
      match credLookup rest k with
      | some v2 => some v2
      | none => if k2 = k then some v else none

/-- The device-flow environment: whether the device-code POST succeeds, and
the successive poll response bodies. -/
structure DeviceFlowEnv where
  deviceCodeOk : Bool
  polls : List TokenResponse
deriving DecidableEq

/-- The result of running `AuthService.deviceFlow` against the environment:
`none` when the unbounded poll loop is still running after the given
responses. -/
def deviceFlowRun (env : DeviceFlowEnv) : Option (Except String TokenResponse) :=
  if env.deviceCodeOk = false then some (Except.error "Failed to request device code")
  else
    match pollLoop env.polls with
    | PollOutcome.success r _ => some (Except.ok r)
    | PollOutcome.failure e => some (Except.error e)
    | PollOutcome.exhausted => none

/-- The environment a credential-helper `get` runs against. -/
structure HelperEnv where
  fileContent : Option String
  now : Nat
  refreshResp : HttpResult
  deviceEnv : DeviceFlowEnv
deriving DecidableEq

/-- The re-authentication branch of `gitCredentialGet` (git.ts 250-276 and
the catch arm 284-306): run the device flow against the normalized host,
persist the converted token, and emit the two credential lines built from
the response's ID token. -/
def reauthOutput (host : String) (env : HelperEnv) : Option (Except String (List String)) :=
  match deviceFlowRun env.deviceEnv with
  | none => none
  | some (Except.error e) => some (Except.error e)
  | some (Except.ok tr) =>
      some (Except.ok ["username=oauth2", "password=" ++ tr.id_token])

/-- Model of `GitService.gitCredentialGet` (git.ts 233-307), returning the stdout
protocol lines: read the input pairs; on a non-JuliaHub host return with no
output; otherwise compare the stored record's server with the host, either
re-authenticating (also on any exception in the `try` block — a device-flow
failure raised inside the mismatch branch reruns the same deterministic
flow in the catch arm and propagates the same error) or emitting the
`ensureValidToken` ID token. -/
def gitCredentialGet (stdinLines : List String) (env : HelperEnv) :
    Option (Except String (List String)) :=
  let input := credPairs stdinLines
  let host := (credLookup input "host").getD ""
  if isJuliaHubURL host = false then some (Except.ok [])
  else
    match readStoredToken env.fileContent with
    | none => reauthOutput host env
    | some storedToken =>
        if storedToken.server ≠ host then reauthOutput host env
        else
          match (ensureValidToken env.fileContent env.now env.refreshResp).result with
          | Except.ok validToken =>
              some (Except.ok ["username=oauth2", "password=" ++ validToken.idToken])
          | Except.error _ => reauthOutput host env

/-- **C9**: a credential-helper `get` whose requested host matches none of
the domain heuristics — no `juliahub.com` suffix, no `juliahub` substring,
and not the configured custom server — emits no output lines and succeeds
(exit 0), regardless of the stored token and the rest of the environment. -/
theorem gitCredentialGet_unrelated_host (stdinLines : List String) (env : HelperEnv)
    (configServer : String)
    (hsuf : "juliahub.com".data.isSuffixOf
      ((credLookup (credPairs stdinLines) "host").getD "").data = false)
    (hsub : containsSeq "juliahub".data
      ((credLookup (credPairs stdinLines) "host").getD "").data = false)
    (hcfg : (credLookup (credPairs stdinLines) "host").getD "" ≠ configServer) :
    gitCredentialGet stdinLines env = some (Except.ok []) := by
  have hjh : isJuliaHubURL ((credLookup (credPairs stdinLines) "host").getD "") = false := by
    unfold isJuliaHubURL
    rw [hsuf, hsub]
    simp
  unfold gitCredentialGet
  simp only [hjh, if_pos]

/-- Witness for C9 with `host=unrelated-host.example.com` on stdin and an
arbitrary concrete environment. -/
theorem gitCredentialGet_unrelated_host_witness :
    gitCredentialGet ["protocol=https", "host=unrelated-host.example.com", ""]
        ⟨none, 0, ⟨true, ⟨"", "", "", 0, "", ""⟩, ""⟩, ⟨true, []⟩⟩ =
      some (Except.ok []) :=
  gitCredentialGet_unrelated_host ["protocol=https", "host=unrelated-host.example.com", ""]
    ⟨none, 0, ⟨true, ⟨"", "", "", 0, "", ""⟩, ""⟩, ⟨true, []⟩⟩
    "my.juliahub.com" (by decide) (by decide) (by decide)


/-! ### Round-trip lemmas for the config store -/

theorem stringMk_data (s : String) : String.mk s.data = s := rfl

theorem takeDigitsChars_digit (d : Nat) (hd : d < 10) (rest : List Char) (acc : Nat) :
    takeDigitsChars (digitChar d :: rest) acc = takeDigitsChars rest (acc * 10 + d) := by
  interval_cases d <;> simp [takeDigitsChars, digitChar, isDigitChar]

theorem takeDigitsChars_renderNat (n : Nat) (rest : List Char) (acc : Nat) :
    takeDigitsChars (renderNat n ++ rest) acc =
      takeDigitsChars rest (acc * 10 ^ (renderNat n).length + n) := by
  induction n using renderNat.induct generalizing rest acc with
  | case1 n h =>
      rw [renderNat, if_pos h]
      rw [List.singleton_append, takeDigitsChars_digit n h]
      norm_num
  | case2 n h ih =>
      rw [renderNat, if_neg h]
      rw [List.append_assoc, List.singleton_append, ih]
      rw [takeDigitsChars_digit (n % 10) (by omega)]
      congr 1
      rw [List.length_append, List.length_singleton, pow_succ, ← mul_assoc]
      generalize acc * 10 ^ (renderNat (n / 10)).length = A
      omega

theorem isJsWs_digitChar (d : Nat) (hd : d < 10) : isJsWs (digitChar d) = false := by
  interval_cases d <;> decide

theorem digitChar_ne_minus (d : Nat) (hd : d < 10) : digitChar d ≠ '-' := by
  interval_cases d <;> decide

theorem digitChar_ne_plus (d : Nat) (hd : d < 10) : digitChar d ≠ '+' := by
  interval_cases d <;> decide

theorem isDigitChar_digitChar (d : Nat) (hd : d < 10) : isDigitChar (digitChar d) = true := by
  interval_cases d <;> decide

theorem renderNat_head (n : Nat) :
    ∃ d rest, renderNat n = digitChar d :: rest ∧ d < 10 := by
  induction n using renderNat.induct with
  | case1 n h =>
      exact ⟨n, [], by rw [renderNat, if_pos h], h⟩
  | case2 n h ih =>
      obtain ⟨d, rest, hst, hd⟩ := ih
      exact ⟨d, rest ++ [digitChar (n % 10)], by rw [renderNat, if_neg h, hst]; rfl, hd⟩

theorem jsParseInt_renderNat (n : Nat) : jsParseInt (renderNat n) = (n : Int) := by
  obtain ⟨d, r2, hst, hd⟩ := renderNat_head n
  have htd : takeDigitsChars (renderNat n) 0 = (n, []) := by
    have h0 := takeDigitsChars_renderNat n [] 0
    simpa [takeDigitsChars] using h0
  rw [jsParseInt, hst, List.dropWhile_cons, isJsWs_digitChar d hd]
  simp only [Bool.false_eq_true, if_false]
  rw [if_neg (digitChar_ne_minus d hd), if_neg (digitChar_ne_plus d hd),
      if_pos (isDigitChar_digitChar d hd), ← hst, htd]

theorem jsParseInt_renderInt_pos (k : Int) (hk : 0 < k) :
    jsParseInt (renderInt k) = k := by
  rw [renderInt, if_neg (by omega)]
  rw [jsParseInt_renderNat]
  omega

theorem dropWhile_eq_self_of_head (p : Char → Bool) (l : List Char)
    (h : l.head?.all (fun c => !p c) = true) : l.dropWhile p = l := by
  cases l with
  | nil => rfl
  | cons c rest =>
      have hc : p c = false := by simpa using h
      rw [List.dropWhile_cons, hc]
      simp

theorem jsTrim_eq_self (l : List Char)
    (hh : l.head?.all (fun c => !isJsWs c) = true)
    (hl : l.getLast?.all (fun c => !isJsWs c) = true) : jsTrim l = l := by
  unfold jsTrim
  rw [dropWhile_eq_self_of_head _ _ hh,
      dropWhile_eq_self_of_head _ _ (by rw [List.head?_reverse]; exact hl),
      List.reverse_reverse]

theorem getLast?_append_all (p : Char → Bool) (A B : List Char) (hB : B ≠ [])
    (h : B.getLast?.all p = true) : (A ++ B).getLast?.all p = true := by
  rw [List.getLast?_append]
  cases hB2 : B.getLast? with
  | none => exact absurd (List.getLast?_eq_none_iff.mp hB2) hB
  | some c =>
      rw [hB2] at h
      simpa using h

theorem stripKey_self (k r : List Char) : stripKey k (k ++ r) = some r := by
  induction k with
  | nil => rfl
  | cons c ks ih => simp [stripKey, ih]


/-- A config line is recognized when, after trimming, it is non-empty and
starts with one of the eight known `key=` prefixes (the guard conditions of
`applyConfigLine`). -/
def recognizesLine (line : List Char) : Bool :=
  !(jsTrim line).isEmpty &&
    ((stripKey "server=".data (jsTrim line)).isSome ||
     (stripKey "access_token=".data (jsTrim line)).isSome ||
     (stripKey "refresh_token=".data (jsTrim line)).isSome ||
     (stripKey "token_type=".data (jsTrim line)).isSome ||
     (stripKey "id_token=".data (jsTrim line)).isSome ||
     (stripKey "expires_in=".data (jsTrim line)).isSome ||
     (stripKey "name=".data (jsTrim line)).isSome ||
     (stripKey "email=".data (jsTrim line)).isSome)

theorem opt_none_of_isSome_false {A : Type} {o : Option A} (h : o.isSome = false) :
    o = none := by
  cases o with
  | none => rfl
  | some v => exact absurd h (by simp)

theorem applyConfigLine_unrecognized (acc : PartialToken) (line : List Char)
    (h : recognizesLine line = false) : applyConfigLine acc line = acc := by
  unfold recognizesLine at h
  unfold applyConfigLine
  by_cases ht : jsTrim line = []
  · simp [ht]
  · rw [if_neg ht]
    have hne : (jsTrim line).isEmpty = false := List.isEmpty_eq_false.mpr ht
    rw [hne] at h
    rw [Bool.not_false, Bool.true_and] at h
    obtain ⟨hx, h8⟩ := Bool.or_eq_false_iff.mp h
    obtain ⟨hx, h7⟩ := Bool.or_eq_false_iff.mp hx
    obtain ⟨hx, h6⟩ := Bool.or_eq_false_iff.mp hx
    obtain ⟨hx, h5⟩ := Bool.or_eq_false_iff.mp hx
    obtain ⟨hx, h4⟩ := Bool.or_eq_false_iff.mp hx
    obtain ⟨hx, h3⟩ := Bool.or_eq_false_iff.mp hx
    obtain ⟨h1, h2⟩ := Bool.or_eq_false_iff.mp hx
    rw [opt_none_of_isSome_false h1, opt_none_of_isSome_false h2,
        opt_none_of_isSome_false h3, opt_none_of_isSome_false h4,
        opt_none_of_isSome_false h5, opt_none_of_isSome_false h6,
        opt_none_of_isSome_false h7, opt_none_of_isSome_false h8]

theorem readStoredTokenFromLines_junk (pre post : List (List Char)) (j : List Char)
    (h : recognizesLine j = false) :
    readStoredTokenFromLines (pre ++ j :: post) = readStoredTokenFromLines (pre ++ post) := by
  unfold readStoredTokenFromLines
  rw [List.foldl_append, List.foldl_cons, applyConfigLine_unrecognized _ j h,
      ← List.foldl_append]

theorem digitChar_ne_newline (d : Nat) (hd : d < 10) : digitChar d ≠ '\n' := by
  interval_cases d <;> decide

theorem renderNat_no_newline (n : Nat) : ∀ c ∈ renderNat n, c ≠ '\n' := by
  induction n using renderNat.induct with
  | case1 n h =>
      intro c hc
      rw [renderNat, if_pos h] at hc
      simp only [List.mem_singleton] at hc
      exact hc ▸ digitChar_ne_newline n h
  | case2 n h ih =>
      intro c hc
      rw [renderNat, if_neg h] at hc
      rcases List.mem_append.mp hc with h1 | h1
      · exact ih c h1
      · simp only [List.mem_singleton] at h1
        exact h1 ▸ digitChar_ne_newline (n % 10) (by omega)

theorem renderNat_getLast_all (n : Nat) :
    (renderNat n).getLast?.all (fun c => !isJsWs c) = true := by
  induction n using renderNat.induct with
  | case1 n h =>
      rw [renderNat, if_pos h]
      simp [isJsWs_digitChar n h]
  | case2 n h ih =>
      rw [renderNat, if_neg h, List.getLast?_concat]
      simp [isJsWs_digitChar (n % 10) (by omega : n % 10 < 10)]

theorem renderNat_ne_nil (n : Nat) : renderNat n ≠ [] := by
  obtain ⟨d, rest, hst, _⟩ := renderNat_head n
  rw [hst]
  exact List.cons_ne_nil _ _


theorem splitChar_line (sep : Char) (A B rest : List Char) (hA : sep ∉ A) (hB : sep ∉ B) :
    splitChar sep (A ++ (B ++ sep :: rest)) = (A ++ B) :: splitChar sep rest := by
  rw [← List.append_assoc]
  exact splitChar_append_sep sep (A ++ B) rest (by
    intro hm
    rcases List.mem_append.mp hm with hm2 | hm2
    · exact hA hm2
    · exact hB hm2)

theorem dataMk (l : List Char) : (String.mk l).data = l := rfl

theorem dataNe (s : String) (h : s ≠ "") : s.data ≠ [] := by
  intro hd
  apply h
  cases s with
  | mk l => cases hd; rfl

/-- A well-behaved field for the config round trip: non-empty, without
newline characters, and without leading or trailing whitespace. -/
abbrev goodField (s : String) : Prop :=
  s ≠ "" ∧ (∀ c ∈ s.data, c ≠ '\n') ∧
  s.data.head?.all (fun c => !isJsWs c) = true ∧
  s.data.getLast?.all (fun c => !isJsWs c) = true


/-- **C10**: writing a StoredToken whose string fields are non-empty with no
newlines and no leading/trailing whitespace and whose `expiresIn` is a
positive integer with `writeTokenToConfig(server, token)` (where
`token.server = server`) and reading the file back with `readStoredToken`
returns the very token; and lines with unrecognized keys never affect the
result of the read. -/
theorem config_roundtrip (server : String) (token : StoredToken)
    (hA : goodField token.accessToken) (hR : goodField token.refreshToken)
    (hT : goodField token.tokenType) (hI : goodField token.idToken)
    (hS : goodField token.server) (hN : goodField token.name)
    (hM : goodField token.email)
    (hserver : token.server = server) (hexp : 0 < token.expiresIn) :
    readStoredToken (some (writeTokenToConfigContent server token)) = some token ∧
    (∀ pre post j, recognizesLine j = false →
      readStoredTokenFromLines (pre ++ j :: post) =
        readStoredTokenFromLines (pre ++ post)) := by
  have hSrv : goodField server := hserver ▸ hS
  have hEV : renderInt token.expiresIn = renderNat token.expiresIn.toNat := by
    rw [renderInt, if_neg (by omega)]
  have hEne : renderInt token.expiresIn ≠ [] := by
    rw [hEV]; exact renderNat_ne_nil _
  have hElast : (renderInt token.expiresIn).getLast?.all (fun c => !isJsWs c) = true := by
    rw [hEV]; exact renderNat_getLast_all _
  have hEnl : '\n' ∉ renderInt token.expiresIn := by
    rw [hEV]
    intro hm
    exact renderNat_no_newline _ '\n' hm rfl
  have noNl : ∀ s : String, goodField s → '\n' ∉ s.data :=
    fun s hgf hm => hgf.2.1 '\n' hm rfl
  have goodLine : ∀ (K V : List Char) (k : Char) (ks : List Char), K = k :: ks →
      isJsWs k = false → V ≠ [] → V.getLast?.all (fun c => !isJsWs c) = true →
      jsTrim (K ++ V) = K ++ V := by
    intro K V k ks hK hk hVne hVl
    subst hK
    exact jsTrim_eq_self _ (by simp [hk]) (getLast?_append_all _ _ _ hVne hVl)
  have nS : '\n' ∉ ['s', 'e', 'r', 'v', 'e', 'r', '='] := by decide
  have nA : '\n' ∉ ['a', 'c', 'c', 'e', 's', 's', '_', 't', 'o', 'k', 'e', 'n', '='] := by
    decide
  have nT : '\n' ∉ ['t', 'o', 'k', 'e', 'n', '_', 't', 'y', 'p', 'e', '='] := by decide
  have nR : '\n' ∉ ['r', 'e', 'f', 'r', 'e', 's', 'h', '_', 't', 'o', 'k', 'e', 'n', '='] := by
    decide
  have nE : '\n' ∉ ['e', 'x', 'p', 'i', 'r', 'e', 's', '_', 'i', 'n', '='] := by decide
  have nI : '\n' ∉ ['i', 'd', '_', 't', 'o', 'k', 'e', 'n', '='] := by decide
  have nN : '\n' ∉ ['n', 'a', 'm', 'e', '='] := by decide
  have nM : '\n' ∉ ['e', 'm', 'a', 'i', 'l', '='] := by decide
  have hcontent : writeTokenToConfigContent server token =
      "server=" ++ server ++ "\n" ++ ("access_token=" ++ token.accessToken ++ "\n")
      ++ ("token_type=" ++ token.tokenType ++ "\n")
      ++ ("refresh_token=" ++ token.refreshToken ++ "\n")
      ++ ("expires_in=" ++ String.mk (renderInt token.expiresIn) ++ "\n")
      ++ ("id_token=" ++ token.idToken ++ "\n") ++ ("name=" ++ token.name ++ "\n")
      ++ ("email=" ++ token.email ++ "\n") := by
    unfold writeTokenToConfigContent
    rw [if_pos hA.1, if_pos hT.1, if_pos hR.1, if_pos (by omega : token.expiresIn ≠ 0),
        if_pos hI.1, if_pos hN.1, if_pos hM.1]
  have hsplit : splitChar '\n' (writeTokenToConfigContent server token).data =
      [['s', 'e', 'r', 'v', 'e', 'r', '='] ++ server.data,
       ['a', 'c', 'c', 'e', 's', 's', '_', 't', 'o', 'k', 'e', 'n', '='] ++ token.accessToken.data,
       ['t', 'o', 'k', 'e', 'n', '_', 't', 'y', 'p', 'e', '='] ++ token.tokenType.data,
       ['r', 'e', 'f', 'r', 'e', 's', 'h', '_', 't', 'o', 'k', 'e', 'n', '='] ++ token.refreshToken.data,
       ['e', 'x', 'p', 'i', 'r', 'e', 's', '_', 'i', 'n', '='] ++ renderInt token.expiresIn,
       ['i', 'd', '_', 't', 'o', 'k', 'e', 'n', '='] ++ token.idToken.data,
       ['n', 'a', 'm', 'e', '='] ++ token.name.data,
       ['e', 'm', 'a', 'i', 'l', '='] ++ token.email.data, []] := by
    rw [hcontent]
    simp only [String.data_append, dataMk]
    simp only [List.append_assoc]
    simp only [List.singleton_append]
    rw [splitChar_line '\n' _ _ _ nS (noNl server hSrv),
        splitChar_line '\n' _ _ _ nA (noNl _ hA),
        splitChar_line '\n' _ _ _ nT (noNl _ hT),
        splitChar_line '\n' _ _ _ nR (noNl _ hR),
        splitChar_line '\n' _ _ _ nE hEnl,
        splitChar_line '\n' _ _ _ nI (noNl _ hI),
        splitChar_line '\n' _ _ _ nN (noNl _ hN),
        splitChar_line '\n' _ _ _ nM (noNl _ hM)]
    rfl
  have st1 : applyConfigLine emptyPartialToken
      (['s', 'e', 'r', 'v', 'e', 'r', '='] ++ server.data) =
      ⟨some server, none, none, none, none, none, none, none⟩ := by
    have htr := goodLine ['s', 'e', 'r', 'v', 'e', 'r', '='] server.data 's'
      ['e', 'r', 'v', 'e', 'r', '='] rfl (by decide) (dataNe server hSrv.1) hSrv.2.2.2
    simp only [applyConfigLine]
    rw [htr, if_neg (by simp)]
    simp [stripKey, stringMk_data, emptyPartialToken]
  have st2 : applyConfigLine ⟨some server, none, none, none, none, none, none, none⟩
      (['a', 'c', 'c', 'e', 's', 's', '_', 't', 'o', 'k', 'e', 'n', '='] ++ token.accessToken.data) =
      ⟨some server, some token.accessToken, none, none, none, none, none, none⟩ := by
    have htr := goodLine ['a', 'c', 'c', 'e', 's', 's', '_', 't', 'o', 'k', 'e', 'n', '=']
      token.accessToken.data 'a' ['c', 'c', 'e', 's', 's', '_', 't', 'o', 'k', 'e', 'n', '=']
      rfl (by decide) (dataNe _ hA.1) hA.2.2.2
    simp only [applyConfigLine]
    rw [htr, if_neg (by simp)]
    simp [stripKey, stringMk_data]
  have st3 : applyConfigLine
      ⟨some server, some token.accessToken, none, none, none, none, none, none⟩
      (['t', 'o', 'k', 'e', 'n', '_', 't', 'y', 'p', 'e', '='] ++ token.tokenType.data) =
      ⟨some server, some token.accessToken, none, some token.tokenType,
       none, none, none, none⟩ := by
    have htr := goodLine ['t', 'o', 'k', 'e', 'n', '_', 't', 'y', 'p', 'e', '=']
      token.tokenType.data 't' ['o', 'k', 'e', 'n', '_', 't', 'y', 'p', 'e', '=']
      rfl (by decide) (dataNe _ hT.1) hT.2.2.2
    simp only [applyConfigLine]
    rw [htr, if_neg (by simp)]
    simp [stripKey, stringMk_data]
  have st4 : applyConfigLine
      ⟨some server, some token.accessToken, none, some token.tokenType,
       none, none, none, none⟩
      (['r', 'e', 'f', 'r', 'e', 's', 'h', '_', 't', 'o', 'k', 'e', 'n', '='] ++ token.refreshToken.data) =
      ⟨some server, some token.accessToken, some token.refreshToken,
       some token.tokenType, none, none, none, none⟩ := by
    have htr := goodLine ['r', 'e', 'f', 'r', 'e', 's', 'h', '_', 't', 'o', 'k', 'e', 'n', '=']
      token.refreshToken.data 'r' ['e', 'f', 'r', 'e', 's', 'h', '_', 't', 'o', 'k', 'e', 'n', '=']
      rfl (by decide) (dataNe _ hR.1) hR.2.2.2
    simp only [applyConfigLine]
    rw [htr, if_neg (by simp)]
    simp [stripKey, stringMk_data]
  have st5 : applyConfigLine
      ⟨some server, some token.accessToken, some token.refreshToken,
       some token.tokenType, none, none, none, none⟩
      (['e', 'x', 'p', 'i', 'r', 'e', 's', '_', 'i', 'n', '='] ++ renderInt token.expiresIn) =
      ⟨some server, some token.accessToken, some token.refreshToken,
       some token.tokenType, none, some (jsParseInt (renderInt token.expiresIn)),
       none, none⟩ := by
    have htr := goodLine ['e', 'x', 'p', 'i', 'r', 'e', 's', '_', 'i', 'n', '=']
      (renderInt token.expiresIn) 'e' ['x', 'p', 'i', 'r', 'e', 's', '_', 'i', 'n', '=']
      rfl (by decide) hEne hElast
    simp only [applyConfigLine]
    rw [htr, if_neg (by simp)]
    simp [stripKey, stringMk_data]
  have st6 : applyConfigLine
      ⟨some server, some token.accessToken, some token.refreshToken,
       some token.tokenType, none, some (jsParseInt (renderInt token.expiresIn)),
       none, none⟩
      (['i', 'd', '_', 't', 'o', 'k', 'e', 'n', '='] ++ token.idToken.data) =
      ⟨some server, some token.accessToken, some token.refreshToken,
       some token.tokenType, some token.idToken,
       some (jsParseInt (renderInt token.expiresIn)), none, none⟩ := by
    have htr := goodLine ['i', 'd', '_', 't', 'o', 'k', 'e', 'n', '=']
      token.idToken.data 'i' ['d', '_', 't', 'o', 'k', 'e', 'n', '=']
      rfl (by decide) (dataNe _ hI.1) hI.2.2.2
    simp only [applyConfigLine]
    rw [htr, if_neg (by simp)]
    simp [stripKey, stringMk_data]
  have st7 : applyConfigLine
      ⟨some server, some token.accessToken, some token.refreshToken,
       some token.tokenType, some token.idToken,
       some (jsParseInt (renderInt token.expiresIn)), none, none⟩
      (['n', 'a', 'm', 'e', '='] ++ token.name.data) =
      ⟨some server, some token.accessToken, some token.refreshToken,
       some token.tokenType, some token.idToken,
       some (jsParseInt (renderInt token.expiresIn)), some token.name, none⟩ := by
    have htr := goodLine ['n', 'a', 'm', 'e', '='] token.name.data 'n' ['a', 'm', 'e', '=']
      rfl (by decide) (dataNe _ hN.1) hN.2.2.2
    simp only [applyConfigLine]
    rw [htr, if_neg (by simp)]
    simp [stripKey, stringMk_data]
  have st8 : applyConfigLine
      ⟨some server, some token.accessToken, some token.refreshToken,
       some token.tokenType, some token.idToken,
       some (jsParseInt (renderInt token.expiresIn)), some token.name, none⟩
      (['e', 'm', 'a', 'i', 'l', '='] ++ token.email.data) =
      ⟨some server, some token.accessToken, some token.refreshToken,
       some token.tokenType, some token.idToken,
       some (jsParseInt (renderInt token.expiresIn)), some token.name,
       some token.email⟩ := by
    have htr := goodLine ['e', 'm', 'a', 'i', 'l', '='] token.email.data 'e' ['m', 'a', 'i', 'l', '=']
      rfl (by decide) (dataNe _ hM.1) hM.2.2.2
    simp only [applyConfigLine]
    rw [htr, if_neg (by simp)]
    simp [stripKey, stringMk_data]
  constructor
  · show readStoredTokenFromLines
        (splitChar '\n' (writeTokenToConfigContent server token).data) = some token
    rw [hsplit]
    unfold readStoredTokenFromLines
    rw [List.foldl_cons, st1, List.foldl_cons, st2, List.foldl_cons, st3,
        List.foldl_cons, st4, List.foldl_cons, st5, List.foldl_cons, st6,
        List.foldl_cons, st7, List.foldl_cons, st8]
    rw [show List.foldl applyConfigLine
        (⟨some server, some token.accessToken, some token.refreshToken,
          some token.tokenType, some token.idToken,
          some (jsParseInt (renderInt token.expiresIn)), some token.name,
          some token.email⟩ : PartialToken) [[]] =
        ⟨some server, some token.accessToken, some token.refreshToken,
         some token.tokenType, some token.idToken,
         some (jsParseInt (renderInt token.expiresIn)), some token.name,
         some token.email⟩ from rfl]
    simp only [Option.getD_some]
    rw [if_neg hA.1, jsParseInt_renderInt_pos _ hexp, ← hserver]
  · exact fun pre post j hj => readStoredTokenFromLines_junk pre post j hj

/-- Witness for C10 at a small concrete token. -/
theorem config_roundtrip_witness :
    readStoredToken (some (writeTokenToConfigContent "s.example.com"
        ⟨"at", "rt", "bearer", 3600, "it", "s.example.com", "na", "em"⟩)) =
      some ⟨"at", "rt", "bearer", 3600, "it", "s.example.com", "na", "em"⟩ :=
  (config_roundtrip "s.example.com"
    ⟨"at", "rt", "bearer", 3600, "it", "s.example.com", "na", "em"⟩
    (by decide) (by decide) (by decide) (by decide) (by decide) (by decide) (by decide)
    rfl (by decide)).1

end JH
